import Mathlib

/-!
Verification of the habit-ledger logic of the kinkiku-card repository
(src/src/index.tsx), shallowly embedded in Lean 4.

The database (Cloudflare D1 / SQLite) is modelled as association lists,
one per table, with SQL `SELECT ... .first()` as `List.lookup`,
`INSERT` as appending a row, `INSERT OR IGNORE` as a conditional append,
and `UPDATE ... WHERE user_id=?` as a keyed map over the rows.
`Date.now()` is passed in as an explicit `now : Nat` parameter.
The JST date strings and the `addDays` helper of index.tsx are embedded
faithfully: dates are `YYYY-MM-DD` strings, parsed and re-rendered, with
the proleptic-Gregorian day arithmetic that JavaScript `Date.UTC` /
`setUTCDate` performs (valid for all dates from 0000-03-01 on, which
covers every string the application produces).
-/

/-- The `status` column of the `days` table: `'workout' | 'skip'`. -/
inductive Status : Type where
  | workout : Status
  | skip : Status
deriving DecidableEq, Repr

/-- A row of the `days` table (minus its key `(user_id, date)`). -/
structure DayRow where
  status : Status
  created_at : Nat
deriving DecidableEq, Repr

/-- A row of the `user_state` table (minus its key `user_id`). -/
structure UserStateRow where
  skip_points : Int
  consec_workout : Int
  updated_at : Nat
deriving DecidableEq, Repr

/-- The whole relational store: the three tables of migrations/0001_init.sql.
`users` maps `id` to `display_name`; `days` is keyed by `(user_id, date)`;
`user_state` is keyed by `user_id`. -/
structure DB where
  users : List (String × String)
  days : List ((String × String) × DayRow)
  user_state : List (String × UserStateRow)
deriving DecidableEq

/-- The store before any request: all three tables empty. -/
def emptyDB : DB := ⟨[], [], []⟩

/-- SQL `INSERT OR IGNORE`: append the row unless the key is present. -/
def insertOrIgnore [BEq α] (t : List (α × β)) (k : α) (v : β) : List (α × β) :=
  match t.lookup k with
  | some _ => t
  | none => t ++ [(k, v)]

/-- SQL `UPDATE ... SET ... WHERE key = k`: replace the value at `k`. -/
def updateWhere [BEq α] (t : List (α × β)) (k : α) (v : β) : List (α × β) :=
  t.map (fun p => cond (p.1 == k) (p.1, v) p)

/-- JavaScript `s.split('-')`: split a character list at every dash,
keeping empty fields (so the result is always nonempty). -/
def splitDash : List Char → List (List Char)
  | [] => [[]]
  | c :: rest =>
    let r := splitDash rest
    if c = '-' then [] :: r
    else
      match r with
      | [] => [[c]]
      | h :: t => (c :: h) :: t

/-- Parse a nonempty all-digit character list as a decimal numeral,
accumulator style; any non-digit yields `none` (JavaScript `NaN`). -/
def digitsAux : List Char → Nat → Option Nat
  | [], acc => some acc
  | c :: rest, acc =>
    if 48 ≤ c.toNat ∧ c.toNat ≤ 57 then digitsAux rest (acc * 10 + (c.toNat - 48))
    else none

/-- JavaScript `Number(field)` restricted to the decimal numerals the
application produces: `none` models `NaN`. -/
def digitsToNat? (cs : List Char) : Option Nat :=
  match cs with
  | [] => none
  | _ :: _ => digitsAux cs 0

/-- Decimal digits of `n`, most significant first; `fuel` bounds the
recursion (any `fuel > n` is enough). -/
def natDigitsAux : Nat → Nat → List Char
  | 0, _ => []
  | fuel + 1, n =>
    if n < 10 then [Char.ofNat (48 + n)]
    else natDigitsAux fuel (n / 10) ++ [Char.ofNat (48 + n % 10)]

/-- Render `n` in decimal, as JavaScript string interpolation of a number. -/
def natDigits (n : Nat) : List Char :=
  natDigitsAux (n + 1) n

/-- Left-pad a numeral to two digits, as `String(n).padStart(2, '0')`. -/
def pad2 (n : Nat) : List Char :=
  if n < 10 then '0' :: natDigits n else natDigits n

/-- Day count of a civil date, measured from 0000-03-01, as computed by
JavaScript `Date.UTC` (proleptic Gregorian). Valid for `1 ≤ y`. -/
def daysFromCivil (y m d : Nat) : Nat :=
  let yAdj := if m ≤ 2 then y - 1 else y
  let era := yAdj / 400
  let yoe := yAdj % 400
  let mp := if 2 < m then m - 3 else m + 9
  let doy := (153 * mp + 2) / 5 + d - 1
  let doe := yoe * 365 + yoe / 4 - yoe / 100 + doy
  era * 146097 + doe

/-- Inverse of `daysFromCivil`: the civil date `(y, m, d)` of a day count. -/
def civilFromDays (z : Nat) : Nat × Nat × Nat :=
  let era := z / 146097
  let doe := z % 146097
  let yoe := (doe - doe / 1460 + doe / 36524 - doe / 146096) / 365
  let y := yoe + era * 400
  let doy := doe - (365 * yoe + yoe / 4 - yoe / 100)
  let mp := (5 * doy + 2) / 153
  let d := doy - (153 * mp + 2) / 5 + 1
  let m := if mp < 10 then mp + 3 else mp - 9
  (if m ≤ 2 then y + 1 else y, m, d)

/-- index.tsx `addDays`: parse `YYYY-MM-DD`, shift by `delta` days via UTC
date arithmetic, re-render with two-digit month and day. A string whose
first three `-`-separated fields do not parse as numerals renders as
`NaN-NaN-NaN`, exactly as the JavaScript original does. -/
def addDays (ymd : String) (delta : Int) : String :=
  match splitDash ymd.data with
  | ys :: ms :: ds :: _ =>
    match digitsToNat? ys, digitsToNat? ms, digitsToNat? ds with
    | some y, some m, some d =>
      let z : Int := (daysFromCivil y m d : Int) + delta
      if 0 ≤ z then
        let c := civilFromDays z.toNat
        ⟨natDigits c.1 ++ ('-' :: pad2 c.2.1) ++ ('-' :: pad2 c.2.2)⟩
      else "NaN-NaN-NaN"
    | _, _, _ => "NaN-NaN-NaN"
  | _ => "NaN-NaN-NaN"

/-- index.tsx `ensureBaseUsers`: `INSERT OR IGNORE` the two fixed user rows
with the given display names, and their initial `user_state` rows with
`skip_points = 2`, `consec_workout = 0`. -/
def ensureBaseUsers (db : DB) (names : String × String) (now : Nat) : DB :=
  { db with
    users :=
      insertOrIgnore (insertOrIgnore db.users "user1" names.1) "user2" names.2,
    user_state :=
      insertOrIgnore (insertOrIgnore db.user_state "user1" ⟨2, 0, now⟩)
        "user2" ⟨2, 0, now⟩ }

/-- index.tsx `upsertWorkout`: return unchanged if a `days` row exists for
`(userId, date)`; otherwise insert the workout row, and if a `user_state`
row exists, recompute the streak from yesterday's row and regenerate a
skip point on even streaks below the cap of 2. -/
def upsertWorkout (db : DB) (userId date : String) (now : Nat) : DB :=
  match db.days.lookup (userId, date) with
  | some _ => db
  | none =>
    let db1 : DB :=
      { db with days := db.days ++ [((userId, date), ⟨Status.workout, now⟩)] }
    match db1.user_state.lookup userId with
    | none => db1
    | some st =>
      let y := addDays date (-1)
      let ys := db1.days.lookup (userId, y)
      let consec : Int :=
        match ys with
        | some r => if r.status = Status.workout then st.consec_workout + 1 else 1
        | none => 1
      let skip : Int :=
        if consec % 2 = 0 ∧ st.skip_points < 2 then st.skip_points + 1
        else st.skip_points
      { db1 with
        user_state := updateWhere db1.user_state userId ⟨skip, consec, now⟩ }

/-- index.tsx `useSkip`: return unchanged if the `user_state` row is missing
or `skip_points ≤ 0`, or if a `days` row exists for `(userId, date)`;
otherwise insert the skip row, decrement `skip_points` and zero the streak. -/
def useSkip (db : DB) (userId date : String) (now : Nat) : DB :=
  match db.user_state.lookup userId with
  | none => db
  | some st =>
    if st.skip_points ≤ 0 then db
    else
      match db.days.lookup (userId, date) with
      | some _ => db
      | none =>
        { db with
          days := db.days ++ [((userId, date), ⟨Status.skip, now⟩)],
          user_state := updateWhere db.user_state userId ⟨st.skip_points - 1, 0, now⟩ }

/-- The stores reachable by the application: `ensureBaseUsers` runs on the
empty store first (it is invoked on every request path before any
mutation), and thereafter any sequence of the three operations, with
arbitrary users, dates and clock values. -/
inductive Reachable : DB → Prop where
  | init : ∀ names now, Reachable (ensureBaseUsers emptyDB names now)
  | ensure : ∀ db names now, Reachable db → Reachable (ensureBaseUsers db names now)
  | workout : ∀ db u d now, Reachable db → Reachable (upsertWorkout db u d now)
  | skip : ∀ db u d now, Reachable db → Reachable (useSkip db u d now)

/-- The `skip_points` invariant: every `user_state` row carries a value in
the closed range `[0, 2]`. -/
def SkipInv (db : DB) : Prop :=
  ∀ p ∈ db.user_state, 0 ≤ p.2.skip_points ∧ p.2.skip_points ≤ 2

/-- The streak scenario of the spec: the store right after the first request
has ensured the two users. -/
def scenarioDB0 : DB := ensureBaseUsers emptyDB ("Alice", "Bob") 0

/-- Scenario: user1 works out on day D1. -/
def scenarioDB1 : DB := upsertWorkout scenarioDB0 "user1" "2024-01-01" 1

/-- Scenario: user1 works out on day D1 + 1. -/
def scenarioDB2 : DB := upsertWorkout scenarioDB1 "user1" "2024-01-02" 2

/-- Scenario: user1 works out on day D1 + 2. -/
def scenarioDB3 : DB := upsertWorkout scenarioDB2 "user1" "2024-01-03" 3

/-- Scenario: user1 works out on day D1 + 3. -/
def scenarioDB4 : DB := upsertWorkout scenarioDB3 "user1" "2024-01-04" 4

/-- A store whose two user rows and state rows are already populated, with
values differing from the initial ones. -/
def populatedDB : DB :=
  ⟨[("user1", "A"), ("user2", "B")], [],
   [("user1", ⟨1, 5, 9⟩), ("user2", ⟨0, 0, 9⟩)]⟩

/-- A store with a user row but no `user_state` row for it. -/
def noStateDB : DB := ⟨[("user1", "A")], [], []⟩

/-- A store where user1 already recorded a workout on 2024-01-01 and holds
state `(skip_points = 1, consec_workout = 1)`. -/
def recordedDB : DB :=
  ⟨[("user1", "A")],
   [(("user1", "2024-01-01"), ⟨Status.workout, 0⟩)],
   [("user1", ⟨1, 1, 0⟩)]⟩

/-- The spec's regeneration example: user1 at `(skip_points = 0,
consec_workout = 1)` with a workout recorded the previous day. -/
def regenDB : DB :=
  ⟨[("user1", "A")],
   [(("user1", "2024-01-01"), ⟨Status.workout, 0⟩)],
   [("user1", ⟨0, 1, 0⟩)]⟩

/-- A store with an old workout on 2024-01-01, a stored streak of 7, and a
gap on 2024-01-02. -/
def gapDB : DB :=
  ⟨[("user1", "A")],
   [(("user1", "2024-01-01"), ⟨Status.workout, 0⟩)],
   [("user1", ⟨2, 7, 0⟩)]⟩

/-- The spec's skip example: user1 at `(skip_points = 1, consec_workout = 3)`
with no day recorded yet. -/
def spendDB : DB := ⟨[("user1", "A")], [], [("user1", ⟨1, 3, 0⟩)]⟩

section LookupLemmas

variable {α : Type u} {β : Type v} [BEq α]

theorem lookup_append (l l' : List (α × β)) (k : α) :
    (l ++ l').lookup k =
      match l.lookup k with
      | some v => some v
      | none => l'.lookup k := by
  induction l with
  | nil => rfl
  | cons p t ih =>
    cases p with
    | mk a b =>
      simp only [List.cons_append, List.lookup]
      cases h : k == a <;> simp [ih]

theorem lookup_singleton_ne [LawfulBEq α] (k k' : α) (v : β) (h : k ≠ k') :
    ([(k', v)] : List (α × β)).lookup k = none := by
  simp [List.lookup, beq_false_of_ne h]

theorem lookup_append_self [LawfulBEq α] (l : List (α × β)) (k : α) (v : β)
    (h : l.lookup k = none) : (l ++ [(k, v)]).lookup k = some v := by
  rw [lookup_append, h]
  simp [List.lookup]

theorem lookup_append_ne [LawfulBEq α] (l : List (α × β)) (k k' : α) (v : β)
    (h : k ≠ k') : (l ++ [(k', v)]).lookup k = l.lookup k := by
  rw [lookup_append]
  cases hx : l.lookup k with
  | some w => rfl
  | none => simpa using lookup_singleton_ne k k' v h

theorem lookup_updateWhere_self [LawfulBEq α] (t : List (α × β)) (k : α) (v v0 : β)
    (h : t.lookup k = some v0) : (updateWhere t k v).lookup k = some v := by
  induction t with
  | nil => simp [List.lookup] at h
  | cons p t ih =>
    cases p with
    | mk a b =>
      simp only [List.lookup] at h
      simp only [updateWhere, List.map_cons]
      cases hk : a == k with
      | true =>
        have : a = k := eq_of_beq hk
        subst this
        simp [List.lookup]
      | false =>
        have hk2 : (k == a) = false := by
          cases hx : k == a with
          | true => rw [eq_of_beq hx] at hk; simp at hk
          | false => rfl
        rw [hk2] at h
        simpa [List.lookup, hk2] using ih h

theorem lookup_updateWhere_ne [LawfulBEq α] (t : List (α × β)) (k k' : α) (v : β)
    (h : k' ≠ k) : (updateWhere t k v).lookup k' = t.lookup k' := by
  induction t with
  | nil => rfl
  | cons p t ih =>
    cases p with
    | mk a b =>
      simp only [updateWhere, List.map_cons] at *
      cases ha : a == k with
      | true =>
        have : a = k := eq_of_beq ha
        subst this
        simp only [ha, cond_true, List.lookup, beq_false_of_ne h]
        exact ih
      | false =>
        simp only [ha, cond_false, List.lookup]
        cases hk : k' == a <;> simp [ih]

theorem lookup_mem [LawfulBEq α] {t : List (α × β)} {k : α} {v : β}
    (h : t.lookup k = some v) : (k, v) ∈ t := by
  induction t with
  | nil => simp [List.lookup] at h
  | cons p t ih =>
    cases p with
    | mk a b =>
      simp only [List.lookup] at h
      cases hk : k == a with
      | true =>
        rw [hk] at h
        cases h
        have : k = a := eq_of_beq hk
        subst this
        exact List.mem_cons_self _ _
      | false =>
        rw [hk] at h
        exact List.mem_cons_of_mem _ (ih h)

theorem updateWhere_forall {P : β → Prop} (t : List (α × β)) (k : α) (v : β)
    (ht : ∀ p ∈ t, P p.2) (hv : P v) : ∀ p ∈ updateWhere t k v, P p.2 := by
  intro p hp
  rcases List.mem_map.mp hp with ⟨q, hq, rfl⟩
  cases h : q.1 == k
  · simpa [h] using ht q hq
  · simpa [h] using hv

theorem insertOrIgnore_forall {P : β → Prop} (t : List (α × β)) (k : α) (v : β)
    (ht : ∀ p ∈ t, P p.2) (hv : P v) : ∀ p ∈ insertOrIgnore t k v, P p.2 := by
  intro p hp
  unfold insertOrIgnore at hp
  cases hx : t.lookup k with
  | some w => rw [hx] at hp; exact ht p hp
  | none =>
    rw [hx] at hp
    rcases List.mem_append.mp hp with h | h
    · exact ht p h
    · rcases List.mem_singleton.mp h with rfl
      exact hv

theorem lookup_eq_none_iff [LawfulBEq α] (t : List (α × β)) (k : α) :
    t.lookup k = none ↔ k ∉ t.map Prod.fst := by
  induction t with
  | nil => simp [List.lookup]
  | cons p t ih =>
    cases p with
    | mk a b =>
      simp only [List.lookup, List.map_cons, List.mem_cons]
      cases hk : k == a with
      | true =>
        have : k = a := eq_of_beq hk
        subst this
        simp
      | false =>
        have : k ≠ a := by
          intro hc; subst hc; simp at hk
        simp [this, ih]

end LookupLemmas

section OpLemmas

theorem upsertWorkout_eq_of_mem (db : DB) (u d : String) (now : Nat) (r : DayRow)
    (h : db.days.lookup (u, d) = some r) : upsertWorkout db u d now = db := by
  unfold upsertWorkout
  rw [h]

theorem useSkip_eq_of_mem (db : DB) (u d : String) (now : Nat) (r : DayRow)
    (h : db.days.lookup (u, d) = some r) : useSkip db u d now = db := by
  unfold useSkip
  cases hst : db.user_state.lookup u with
  | none => rfl
  | some st =>
    by_cases hsp : st.skip_points ≤ 0 <;> simp [hsp, h]

theorem upsertWorkout_days_of_not_mem (db : DB) (u d : String) (now : Nat)
    (h : db.days.lookup (u, d) = none) :
    (upsertWorkout db u d now).days = db.days ++ [((u, d), ⟨Status.workout, now⟩)] := by
  unfold upsertWorkout
  rw [h]
  cases hst : List.lookup u db.user_state <;> simp [hst]

theorem upsertWorkout_users (db : DB) (u d : String) (now : Nat) :
    (upsertWorkout db u d now).users = db.users := by
  unfold upsertWorkout
  cases hx : db.days.lookup (u, d) with
  | some r => rfl
  | none => cases hst : List.lookup u db.user_state <;> simp [hst]

theorem useSkip_users (db : DB) (u d : String) (now : Nat) :
    (useSkip db u d now).users = db.users := by
  unfold useSkip
  cases hst : db.user_state.lookup u with
  | none => rfl
  | some st =>
    by_cases hsp : st.skip_points ≤ 0
    · simp [hsp]
    · simp only [hsp, if_false]
      cases hx : db.days.lookup (u, d) <;> simp

theorem upsertWorkout_eq_of_no_state (db : DB) (u d : String) (now : Nat)
    (hday : db.days.lookup (u, d) = none)
    (hst : db.user_state.lookup u = none) :
    upsertWorkout db u d now =
      { db with days := db.days ++ [((u, d), ⟨Status.workout, now⟩)] } := by
  unfold upsertWorkout
  rw [hday]
  simp [hst]

theorem upsertWorkout_eq_of_state (db : DB) (u d : String) (now : Nat) (st : UserStateRow)
    (hday : db.days.lookup (u, d) = none)
    (hst : db.user_state.lookup u = some st) :
    upsertWorkout db u d now =
      (let days1 := db.days ++ [((u, d), ⟨Status.workout, now⟩)]
       let consec : Int :=
         match days1.lookup (u, addDays d (-1)) with
         | some r => if r.status = Status.workout then st.consec_workout + 1 else 1
         | none => 1
       let skip : Int :=
         if consec % 2 = 0 ∧ st.skip_points < 2 then st.skip_points + 1
         else st.skip_points
       { db with days := days1,
                 user_state := updateWhere db.user_state u ⟨skip, consec, now⟩ }) := by
  unfold upsertWorkout
  rw [hday]
  simp [hst]

theorem useSkip_eq_of_state (db : DB) (u d : String) (now : Nat) (st : UserStateRow)
    (hst : db.user_state.lookup u = some st)
    (hsp : ¬st.skip_points ≤ 0)
    (hday : db.days.lookup (u, d) = none) :
    useSkip db u d now =
      { db with days := db.days ++ [((u, d), ⟨Status.skip, now⟩)],
                user_state := updateWhere db.user_state u ⟨st.skip_points - 1, 0, now⟩ } := by
  unfold useSkip
  simp [hst, hsp, hday]

theorem insertOrIgnore_of_mem [BEq α] (t : List (α × β)) (k : α) (v v0 : β)
    (h : t.lookup k = some v0) : insertOrIgnore t k v = t := by
  unfold insertOrIgnore
  rw [h]

theorem insertOrIgnore_of_not_mem [BEq α] (t : List (α × β)) (k : α) (v : β)
    (h : t.lookup k = none) : insertOrIgnore t k v = t ++ [(k, v)] := by
  unfold insertOrIgnore
  rw [h]

theorem nodup_append_key [BEq α] [LawfulBEq α] (t : List (α × β)) (k : α) (v : β)
    (hn : (t.map Prod.fst).Nodup) (h : t.lookup k = none) :
    ((t ++ [(k, v)]).map Prod.fst).Nodup := by
  rw [List.map_append]
  rw [List.nodup_append]
  refine ⟨hn, List.nodup_singleton k, ?_⟩
  intro a ha hb
  rcases List.mem_singleton.mp hb with rfl
  exact (lookup_eq_none_iff t a).mp h ha

theorem useSkip_days_cases (db : DB) (u d : String) (now : Nat) :
    (useSkip db u d now).days = db.days ∨
    (db.days.lookup (u, d) = none ∧
     (useSkip db u d now).days = db.days ++ [((u, d), ⟨Status.skip, now⟩)]) := by
  unfold useSkip
  cases hst : db.user_state.lookup u with
  | none => exact Or.inl rfl
  | some st =>
    by_cases hsp : st.skip_points ≤ 0
    · simp [hsp]
    · simp only [hsp, if_false]
      cases hx : db.days.lookup (u, d) with
      | some r => simp
      | none => exact Or.inr ⟨rfl, by simp⟩

theorem upsertWorkout_state_lookup (db : DB) (u d : String) (now : Nat)
    (st : UserStateRow)
    (hday : db.days.lookup (u, d) = none)
    (hst : db.user_state.lookup u = some st)
    (hd : addDays d (-1) ≠ d) :
    (upsertWorkout db u d now).user_state.lookup u =
      some
        (let consec : Int :=
           match db.days.lookup (u, addDays d (-1)) with
           | some r => if r.status = Status.workout then st.consec_workout + 1 else 1
           | none => 1
         ⟨if consec % 2 = 0 ∧ st.skip_points < 2 then st.skip_points + 1
           else st.skip_points, consec, now⟩) := by
  have hprev :
      (db.days ++ [((u, d), (⟨Status.workout, now⟩ : DayRow))]).lookup
          (u, addDays d (-1)) = db.days.lookup (u, addDays d (-1)) :=
    lookup_append_ne _ _ _ _ (by intro hc; exact hd (congrArg Prod.snd hc))
  rw [upsertWorkout_eq_of_state db u d now st hday hst]
  simp only [hprev]
  exact lookup_updateWhere_self _ _ _ _ hst

theorem skipInv_ensure (db : DB) (names : String × String) (now : Nat)
    (h : SkipInv db) : SkipInv (ensureBaseUsers db names now) := by
  intro p hp
  refine insertOrIgnore_forall (P := fun r : UserStateRow => 0 ≤ r.skip_points ∧ r.skip_points ≤ 2) _ _ _
    (insertOrIgnore_forall (P := fun r : UserStateRow => 0 ≤ r.skip_points ∧ r.skip_points ≤ 2) _ _ _ h
      (by exact ⟨by norm_num, by norm_num⟩))
    (by exact ⟨by norm_num, by norm_num⟩) p hp

theorem skipInv_upsert (db : DB) (u d : String) (now : Nat)
    (h : SkipInv db) : SkipInv (upsertWorkout db u d now) := by
  cases hday : db.days.lookup (u, d) with
  | some r => rw [upsertWorkout_eq_of_mem db u d now r hday]; exact h
  | none =>
    cases hst : db.user_state.lookup u with
    | none => rw [upsertWorkout_eq_of_no_state db u d now hday hst]; exact h
    | some st =>
      rw [upsertWorkout_eq_of_state db u d now st hday hst]
      intro p hp
      have hb := h (u, st) (lookup_mem hst)
      refine updateWhere_forall
        (P := fun r : UserStateRow => 0 ≤ r.skip_points ∧ r.skip_points ≤ 2) _ _ _ h ?_ p hp
      dsimp only at hb ⊢
      by_cases hc :
          (match (db.days ++ [((u, d), (⟨Status.workout, now⟩ : DayRow))]).lookup
              (u, addDays d (-1)) with
            | some r => if r.status = Status.workout then st.consec_workout + 1 else 1
            | none => (1 : Int)) % 2 = 0 ∧ st.skip_points < 2
      · simp only [if_pos hc]
        constructor <;> omega
      · simp only [if_neg hc]
        exact hb

theorem skipInv_useSkip (db : DB) (u d : String) (now : Nat)
    (h : SkipInv db) : SkipInv (useSkip db u d now) := by
  cases hst : db.user_state.lookup u with
  | none =>
    unfold useSkip
    rw [hst]
    exact h
  | some st =>
    by_cases hsp : st.skip_points ≤ 0
    · unfold useSkip
      rw [hst]
      simpa [hsp] using h
    · cases hday : db.days.lookup (u, d) with
      | some r => rw [useSkip_eq_of_mem db u d now r hday]; exact h
      | none =>
        rw [useSkip_eq_of_state db u d now st hst hsp hday]
        intro p hp
        have hb := h (u, st) (lookup_mem hst)
        refine updateWhere_forall
          (P := fun r : UserStateRow => 0 ≤ r.skip_points ∧ r.skip_points ≤ 2) _ _ _ h ?_ p hp
        dsimp only at hb ⊢
        constructor <;> omega

theorem reachable_days_nodup {db : DB} (h : Reachable db) :
    (db.days.map Prod.fst).Nodup := by
  induction h with
  | init names now => exact List.nodup_nil
  | ensure db names now _ ih => exact ih
  | workout db u d now _ ih =>
    cases hx : db.days.lookup (u, d) with
    | some r => rw [upsertWorkout_eq_of_mem db u d now r hx]; exact ih
    | none =>
      rw [upsertWorkout_days_of_not_mem db u d now hx]
      exact nodup_append_key _ _ _ ih hx
  | skip db u d now _ ih =>
    rcases useSkip_days_cases db u d now with hh | ⟨hx, hh⟩
    · rw [hh]; exact ih
    · rw [hh]; exact nodup_append_key _ _ _ ih hx

end OpLemmas

theorem addDays_sample_prev : addDays "2024-01-02" (-1) = "2024-01-01" := by decide

theorem addDays_sample_year_wrap : addDays "2024-01-01" (-1) = "2023-12-31" := by decide

theorem addDays_sample_leap : addDays "2024-02-29" 1 = "2024-03-01" := by decide

theorem addDays_sample_malformed : addDays "abc" (-1) = "NaN-NaN-NaN" := by decide

/-- C1: in record_workout, after the new streak is computed, `skip_points`
is incremented by exactly 1 if and only if the new streak is even and the
current `skip_points` is strictly below 2; odd streaks or a full budget
leave it unchanged. The persisted row is `(new skip, new streak, now)`. -/
theorem upsertWorkout_skip_regen (db : DB) (u d : String) (now : Nat)
    (sp cw : Int) (t0 : Nat)
    (hday : db.days.lookup (u, d) = none)
    (hst : db.user_state.lookup u = some ⟨sp, cw, t0⟩) :
    ∃ c : Int, (upsertWorkout db u d now).user_state.lookup u =
      some ⟨if c % 2 = 0 ∧ sp < 2 then sp + 1 else sp, c, now⟩ := by
  rw [upsertWorkout_eq_of_state db u d now _ hday hst]
  exact ⟨_, lookup_updateWhere_self _ _ _ _ hst⟩

/-- C1 witness: from `(skip_points = 0, consec_workout = 1)` with a workout
on the previous calendar day, recording a workout persists skip_points 1
and streak 2. -/
theorem upsertWorkout_skip_regen_witness :
    (∃ c : Int, (upsertWorkout regenDB "user1" "2024-01-02" 5).user_state.lookup "user1" =
       some ⟨if c % 2 = 0 ∧ (0 : Int) < 2 then 0 + 1 else 0, c, 5⟩) ∧
    (upsertWorkout regenDB "user1" "2024-01-02" 5).user_state.lookup "user1" =
       some ⟨1, 2, 5⟩ :=
  ⟨upsertWorkout_skip_regen regenDB "user1" "2024-01-02" 5 0 1 0 (by decide) (by decide),
   by decide⟩

/-- C2: when the day is newly inserted and a `user_state` row exists, the
persisted streak is the stored streak plus 1 exactly when the previous
calendar day has a workout row, and 1 in every other case. -/
theorem upsertWorkout_streak (db : DB) (u d : String) (now : Nat)
    (sp cw : Int) (t0 : Nat)
    (hday : db.days.lookup (u, d) = none)
    (hst : db.user_state.lookup u = some ⟨sp, cw, t0⟩)
    (hd : addDays d (-1) ≠ d) :
    (∀ t1 : Nat, db.days.lookup (u, addDays d (-1)) = some ⟨Status.workout, t1⟩ →
       ∃ s : Int, (upsertWorkout db u d now).user_state.lookup u = some ⟨s, cw + 1, now⟩) ∧
    ((∀ t1 : Nat, db.days.lookup (u, addDays d (-1)) ≠ some ⟨Status.workout, t1⟩) →
       ∃ s : Int, (upsertWorkout db u d now).user_state.lookup u = some ⟨s, 1, now⟩) := by
  have hmain := upsertWorkout_state_lookup db u d now ⟨sp, cw, t0⟩ hday hst hd
  constructor
  · intro t1 h1
    rw [h1] at hmain
    exact ⟨_, by simpa using hmain⟩
  · intro h2
    cases hl : db.days.lookup (u, addDays d (-1)) with
    | none =>
      rw [hl] at hmain
      exact ⟨_, by simpa using hmain⟩
    | some r =>
      cases r with
      | mk stt ct =>
        cases stt with
        | workout => exact absurd hl (h2 ct)
        | skip =>
          rw [hl] at hmain
          exact ⟨_, by simpa using hmain⟩

/-- C2 witness: a workout after a gap persists streak 1 despite a stored
streak of 7, and a workout the day after a workout persists streak 8. -/
theorem upsertWorkout_streak_witness :
    (∃ s : Int, (upsertWorkout gapDB "user1" "2024-01-03" 9).user_state.lookup "user1" =
       some ⟨s, 1, 9⟩) ∧
    (∃ s : Int, (upsertWorkout gapDB "user1" "2024-01-02" 9).user_state.lookup "user1" =
       some ⟨s, 7 + 1, 9⟩) :=
  ⟨(upsertWorkout_streak gapDB "user1" "2024-01-03" 9 2 7 0 (by decide) (by decide)
      (by decide)).2
      (by
        intro t1 hc
        rw [show gapDB.days.lookup ("user1", addDays "2024-01-03" (-1)) = none from
          by decide] at hc
        exact Option.noConfusion hc),
   (upsertWorkout_streak gapDB "user1" "2024-01-02" 9 2 7 0 (by decide) (by decide)
      (by decide)).1 0 (by decide)⟩

/-- C3: every store reachable from the ensured initial state keeps every
user's `skip_points` inside the closed range `[0, 2]`. -/
theorem skip_points_in_range (db : DB) (h : Reachable db) : SkipInv db := by
  induction h with
  | init names now =>
    refine skipInv_ensure emptyDB names now ?_
    intro p hp
    simp [emptyDB] at hp
  | ensure db names now _ ih => exact skipInv_ensure db names now ih
  | workout db u d now _ ih => exact skipInv_upsert db u d now ih
  | skip db u d now _ ih => exact skipInv_useSkip db u d now ih

/-- C3 witness: the four-consecutive-workout scenario stays in range, the
streak runs 1, 2, 3, 4, and `skip_points` stays at 2 throughout. -/
theorem skip_points_in_range_witness :
    SkipInv scenarioDB4 ∧
    scenarioDB1.user_state.lookup "user1" = some ⟨2, 1, 1⟩ ∧
    scenarioDB2.user_state.lookup "user1" = some ⟨2, 2, 2⟩ ∧
    scenarioDB3.user_state.lookup "user1" = some ⟨2, 3, 3⟩ ∧
    scenarioDB4.user_state.lookup "user1" = some ⟨2, 4, 4⟩ :=
  ⟨skip_points_in_range scenarioDB4
     (Reachable.workout _ _ _ _ (Reachable.workout _ _ _ _ (Reachable.workout _ _ _ _
       (Reachable.workout _ _ _ _ (Reachable.init ("Alice", "Bob") 0))))),
   by decide, by decide, by decide, by decide⟩

/-- C4: record_skip with a positive budget and no existing day row inserts
a skip row for the date and persists `skip_points - 1` and streak 0. -/
theorem useSkip_spends_point (db : DB) (u d : String) (now : Nat)
    (sp cw : Int) (t0 : Nat)
    (hst : db.user_state.lookup u = some ⟨sp, cw, t0⟩)
    (hsp : 0 < sp)
    (hday : db.days.lookup (u, d) = none) :
    (useSkip db u d now).days.lookup (u, d) = some ⟨Status.skip, now⟩ ∧
    (useSkip db u d now).user_state.lookup u = some ⟨sp - 1, 0, now⟩ := by
  have hsp2 : ¬(⟨sp, cw, t0⟩ : UserStateRow).skip_points ≤ 0 := by
    dsimp only
    omega
  rw [useSkip_eq_of_state db u d now _ hst hsp2 hday]
  exact ⟨lookup_append_self _ _ _ hday, lookup_updateWhere_self _ _ _ _ hst⟩

/-- C4 witness: a skip at `(skip_points = 1, consec_workout = 3)` yields
`(0, 0)` plus a skip row for the date. -/
theorem useSkip_spends_point_witness :
    (useSkip spendDB "user1" "2024-01-05" 4).days.lookup ("user1", "2024-01-05") =
        some ⟨Status.skip, 4⟩ ∧
    (useSkip spendDB "user1" "2024-01-05" 4).user_state.lookup "user1" =
        some ⟨0, 0, 4⟩ := by
  have h := useSkip_spends_point spendDB "user1" "2024-01-05" 4 1 3 0
    (by decide) (by decide) (by decide)
  exact ⟨h.1, h.2⟩

/-- C5: record_workout is idempotent: a second call for the same user and
date finds the day row left by the first call and returns its input store
unchanged. -/
theorem upsertWorkout_idempotent (db : DB) (u d : String) (now now2 : Nat) :
    upsertWorkout (upsertWorkout db u d now) u d now2 = upsertWorkout db u d now := by
  cases hx : db.days.lookup (u, d) with
  | some r =>
    rw [upsertWorkout_eq_of_mem db u d now r hx]
    exact upsertWorkout_eq_of_mem db u d now2 r hx
  | none =>
    have h2 : (upsertWorkout db u d now).days.lookup (u, d) =
        some ⟨Status.workout, now⟩ := by
      rw [upsertWorkout_days_of_not_mem db u d now hx]
      exact lookup_append_self _ _ _ hx
    exact upsertWorkout_eq_of_mem _ u d now2 _ h2

/-- C6: record_skip with an exhausted budget, or with no `user_state` row at
all, is a complete no-op on the store. -/
theorem useSkip_no_budget (db : DB) (u d : String) (now : Nat)
    (h : db.user_state.lookup u = none ∨
         ∃ (cw : Int) (t0 : Nat), db.user_state.lookup u = some ⟨0, cw, t0⟩) :
    useSkip db u d now = db := by
  rcases h with h | ⟨cw, t0, h⟩
  · unfold useSkip
    rw [h]
  · unfold useSkip
    rw [h]
    simp

/-- C6 witness: a skip attempted at `skip_points = 0` changes nothing. -/
theorem useSkip_no_budget_witness :
    useSkip ⟨[("user1", "A")], [], [("user1", ⟨0, 3, 7⟩)]⟩ "user1" "2024-01-01" 9 =
      ⟨[("user1", "A")], [], [("user1", ⟨0, 3, 7⟩)]⟩ :=
  useSkip_no_budget _ "user1" "2024-01-01" 9 (Or.inr ⟨3, 7, by decide⟩)

/-- C7 counterexample: with no `user_state` row and no day row,
record_workout does write: the workout day row is inserted before the
state lookup, so the store changes. -/
theorem upsertWorkout_missing_state_cex :
    upsertWorkout noStateDB "user1" "2024-01-01" 5 ≠ noStateDB := by decide

/-- C7 amended: when the `user_state` row is missing and no day row exists,
record_workout inserts the workout day row and then aborts: the
`user_state` and `users` tables are left unmodified, but the Days write
has already happened. -/
theorem upsertWorkout_missing_state (db : DB) (u d : String) (now : Nat)
    (hday : db.days.lookup (u, d) = none)
    (hst : db.user_state.lookup u = none) :
    (upsertWorkout db u d now).days = db.days ++ [((u, d), ⟨Status.workout, now⟩)] ∧
    (upsertWorkout db u d now).user_state = db.user_state ∧
    (upsertWorkout db u d now).users = db.users := by
  rw [upsertWorkout_eq_of_no_state db u d now hday hst]
  exact ⟨rfl, rfl, rfl⟩

/-- C7 witness: the amended behaviour at a concrete store with a user row
but no state row. -/
theorem upsertWorkout_missing_state_witness :
    (upsertWorkout noStateDB "user1" "2024-01-01" 5).days =
        noStateDB.days ++ [(("user1", "2024-01-01"), ⟨Status.workout, 5⟩)] ∧
    (upsertWorkout noStateDB "user1" "2024-01-01" 5).user_state = noStateDB.user_state ∧
    (upsertWorkout noStateDB "user1" "2024-01-01" 5).users = noStateDB.users :=
  upsertWorkout_missing_state noStateDB "user1" "2024-01-01" 5 (by decide) (by decide)

/-- C8: a day row is immutable once inserted: if one exists for (user,
date), both operations return the store unchanged; and every reachable
store has at most one day row per (user, date). -/
theorem dayRecord_immutable :
    (∀ (db : DB) (u d : String) (now : Nat) (r : DayRow),
       db.days.lookup (u, d) = some r →
       upsertWorkout db u d now = db ∧ useSkip db u d now = db) ∧
    (∀ db : DB, Reachable db → (db.days.map Prod.fst).Nodup) := by
  constructor
  · intro db u d now r h
    exact ⟨upsertWorkout_eq_of_mem db u d now r h, useSkip_eq_of_mem db u d now r h⟩
  · intro db h
    exact reachable_days_nodup h

/-- C8 witness: both operations leave a store with a recorded day
unchanged, and a reachable store has pairwise-distinct day keys. -/
theorem dayRecord_immutable_witness :
    (upsertWorkout recordedDB "user1" "2024-01-01" 9 = recordedDB ∧
     useSkip recordedDB "user1" "2024-01-01" 9 = recordedDB) ∧
    (scenarioDB1.days.map Prod.fst).Nodup :=
  ⟨dayRecord_immutable.1 recordedDB "user1" "2024-01-01" 9 ⟨Status.workout, 0⟩ (by decide),
   dayRecord_immutable.2 scenarioDB1
     (Reachable.workout _ _ _ _ (Reachable.init ("Alice", "Bob") 0))⟩

/-- C9: ensure_users changes nothing when the two user rows and their state
rows exist, and otherwise creates exactly the two user rows with the given
display names and state rows with `skip_points = 2`, `consec_workout = 0`. -/
theorem ensureBaseUsers_spec :
    (∀ (db : DB) (names : String × String) (now : Nat),
       (db.users.lookup "user1").isSome → (db.users.lookup "user2").isSome →
       (db.user_state.lookup "user1").isSome → (db.user_state.lookup "user2").isSome →
       ensureBaseUsers db names now = db) ∧
    (∀ (db : DB) (names : String × String) (now : Nat),
       db.users.lookup "user1" = none → db.users.lookup "user2" = none →
       db.user_state.lookup "user1" = none → db.user_state.lookup "user2" = none →
       (ensureBaseUsers db names now).users =
         db.users ++ [("user1", names.1), ("user2", names.2)] ∧
       (ensureBaseUsers db names now).user_state =
         db.user_state ++ [("user1", ⟨2, 0, now⟩), ("user2", ⟨2, 0, now⟩)]) := by
  constructor
  · intro db names now h1 h2 h3 h4
    rcases Option.isSome_iff_exists.mp h1 with ⟨n1, h1⟩
    rcases Option.isSome_iff_exists.mp h2 with ⟨n2, h2⟩
    rcases Option.isSome_iff_exists.mp h3 with ⟨s1, h3⟩
    rcases Option.isSome_iff_exists.mp h4 with ⟨s2, h4⟩
    have hu : insertOrIgnore (insertOrIgnore db.users "user1" names.1) "user2" names.2 =
        db.users := by
      rw [insertOrIgnore_of_mem db.users "user1" names.1 n1 h1]
      exact insertOrIgnore_of_mem db.users "user2" names.2 n2 h2
    have hs : insertOrIgnore
        (insertOrIgnore db.user_state "user1" ⟨2, 0, now⟩) "user2" ⟨2, 0, now⟩ =
        db.user_state := by
      rw [insertOrIgnore_of_mem db.user_state "user1" _ s1 h3]
      exact insertOrIgnore_of_mem db.user_state "user2" _ s2 h4
    show DB.mk _ _ _ = db
    rw [hu, hs]
  · intro db names now h1 h2 h3 h4
    have hu1 : insertOrIgnore db.users "user1" names.1 = db.users ++ [("user1", names.1)] :=
      insertOrIgnore_of_not_mem _ _ _ h1
    have hu2 : (db.users ++ [("user1", names.1)]).lookup "user2" = none := by
      rw [lookup_append_ne _ _ _ _ (by decide)]
      exact h2
    have hs1 : insertOrIgnore db.user_state "user1" (⟨2, 0, now⟩ : UserStateRow) =
        db.user_state ++ [("user1", ⟨2, 0, now⟩)] :=
      insertOrIgnore_of_not_mem _ _ _ h3
    have hs2 : (db.user_state ++ [("user1", (⟨2, 0, now⟩ : UserStateRow))]).lookup
        "user2" = none := by
      rw [lookup_append_ne _ _ _ _ (by decide)]
      exact h4
    constructor
    · show insertOrIgnore (insertOrIgnore db.users "user1" names.1) "user2" names.2 = _
      rw [hu1, insertOrIgnore_of_not_mem _ _ _ hu2, List.append_assoc]
      rfl
    · show insertOrIgnore (insertOrIgnore db.user_state "user1" _) "user2" _ = _
      rw [hs1, insertOrIgnore_of_not_mem _ _ _ hs2, List.append_assoc]
      rfl

/-- C9 witness: the populated store is untouched, and the empty store gets
exactly the two users and their initial state rows. -/
theorem ensureBaseUsers_spec_witness :
    ensureBaseUsers populatedDB ("X", "Y") 7 = populatedDB ∧
    (ensureBaseUsers emptyDB ("X", "Y") 7).users = [("user1", "X"), ("user2", "Y")] ∧
    (ensureBaseUsers emptyDB ("X", "Y") 7).user_state =
      [("user1", ⟨2, 0, 7⟩), ("user2", ⟨2, 0, 7⟩)] :=
  ⟨ensureBaseUsers_spec.1 populatedDB ("X", "Y") 7
     (by decide) (by decide) (by decide) (by decide),
   (ensureBaseUsers_spec.2 emptyDB ("X", "Y") 7 rfl rfl rfl rfl).1,
   (ensureBaseUsers_spec.2 emptyDB ("X", "Y") 7 rfl rfl rfl rfl).2⟩

/-- C10: per-user isolation: an operation for user `u` leaves the `users`
table, and every day row and the state row of any other user `v`,
unchanged. -/
theorem perUser_frame (db : DB) (u v d : String) (now : Nat) (h : v ≠ u) :
    ((upsertWorkout db u d now).users = db.users ∧
     (∀ e, (upsertWorkout db u d now).days.lookup (v, e) = db.days.lookup (v, e)) ∧
     (upsertWorkout db u d now).user_state.lookup v = db.user_state.lookup v) ∧
    ((useSkip db u d now).users = db.users ∧
     (∀ e, (useSkip db u d now).days.lookup (v, e) = db.days.lookup (v, e)) ∧
     (useSkip db u d now).user_state.lookup v = db.user_state.lookup v) := by
  have hkey : ∀ e, ((v, e) : String × String) ≠ (u, d) := by
    intro e hc
    exact h (congrArg Prod.fst hc)
  constructor
  · cases hday : db.days.lookup (u, d) with
    | some r =>
      rw [upsertWorkout_eq_of_mem db u d now r hday]
      exact ⟨rfl, fun e => rfl, rfl⟩
    | none =>
      cases hst : db.user_state.lookup u with
      | none =>
        rw [upsertWorkout_eq_of_no_state db u d now hday hst]
        exact ⟨rfl, fun e => lookup_append_ne _ _ _ _ (hkey e), rfl⟩
      | some st =>
        rw [upsertWorkout_eq_of_state db u d now st hday hst]
        exact ⟨rfl, fun e => lookup_append_ne _ _ _ _ (hkey e),
          lookup_updateWhere_ne _ _ _ _ h⟩
  · cases hst : db.user_state.lookup u with
    | none =>
      have hid : useSkip db u d now = db := by
        unfold useSkip
        rw [hst]
      rw [hid]
      exact ⟨rfl, fun e => rfl, rfl⟩
    | some st =>
      by_cases hsp : st.skip_points ≤ 0
      · have hid : useSkip db u d now = db := by
          unfold useSkip
          rw [hst]
          simp [hsp]
        rw [hid]
        exact ⟨rfl, fun e => rfl, rfl⟩
      · cases hday : db.days.lookup (u, d) with
        | some r =>
          rw [useSkip_eq_of_mem db u d now r hday]
          exact ⟨rfl, fun e => rfl, rfl⟩
        | none =>
          rw [useSkip_eq_of_state db u d now st hst hsp hday]
          exact ⟨rfl, fun e => lookup_append_ne _ _ _ _ (hkey e),
            lookup_updateWhere_ne _ _ _ _ h⟩

/-- C10 witness: recording for user1 leaves user2's state row and day rows
untouched in a concrete store. -/
theorem perUser_frame_witness :
    (upsertWorkout populatedDB "user1" "2024-01-01" 3).user_state.lookup "user2" =
        populatedDB.user_state.lookup "user2" ∧
    (useSkip populatedDB "user1" "2024-01-01" 3).days.lookup ("user2", "2024-01-01") =
        populatedDB.days.lookup ("user2", "2024-01-01") :=
  ⟨(perUser_frame populatedDB "user1" "user2" "2024-01-01" 3 (by decide)).1.2.2,
   (perUser_frame populatedDB "user1" "user2" "2024-01-01" 3 (by decide)).2.2.1 "2024-01-01"⟩
